import Mathlib

/-!
Verification of the NegotiationEngine auction API (transport layer
`API PILOT 1/transport/auction_transport.py`) together with the
auction-lifecycle service it relies on, reconstructed from the design
specification where the service sources are not part of this tree.

Conventions of the embedding:
* fallible operations return `Except ServiceError α`; an error result
  leaves the caller's state untouched (the transport re-raises and
  discards any partial state);
* JSON numbers are embedded as `ℚ`, timestamps as `Int`,
  2-D locations as `Int × Int`;
* query-string parameters are `Option String` (absent = `none`).
-/

/-- Error taxonomy of the service layer (spec §7). -/
inductive ServiceError where
  | ValidationError
  | NotFoundError
  | PermissionError
  | AccessDeniedError
  | AuctionClosedError
  | AlreadyJoinedError
  | InvalidBidError
  | InvalidWinnerError
  | DuplicateMemberError
  | NotMemberError
deriving DecidableEq, Repr

/-- Auction privacy, values admitted by `create_auction_schema`'s
pattern `(public|private)` anchored at both ends. -/
inductive Privacy where
  | «public»
  | «private»
deriving DecidableEq, Repr

/-- Auction direction, values admitted by `create_auction_schema`'s
pattern `(ascending|descending)` anchored at both ends. -/
inductive AuctionType where
  | ascending
  | descending
deriving DecidableEq, Repr

/-- Auction lifecycle status (spec §3): `open --end()--> closed`. -/
inductive Status where
  | «open»
  | closed
deriving DecidableEq, Repr

/-- A member of an auction room (spec §3): username, 2-D location,
offer id, and an optional broker delegation. -/
structure Member where
  username : String
  location : Int × Int
  offer_id : String
  represented_broker_id : Option String
deriving DecidableEq, Repr

/-- A recorded bid (spec §3); the bid log is kept in arrival order. -/
structure Bid where
  bidder : String
  amount : ℚ
deriving DecidableEq, Repr

/-- The mutable per-auction state (spec §3).  `min_bid` is the
reservable minimum an ascending auction's first bid must exceed
(spec §4.3 and the §8 scenario's explicit min-bid). -/
structure Auction where
  room_name : String
  privacy : Privacy
  auction_type : AuctionType
  closing_time : Int
  reference_sector : String
  reference_type : String
  quantity : ℚ
  offer_id : String
  templatetype : String
  broker_id : String
  owner : String
  status : Status
  winner : Option String
  members : List Member
  bids : List Bid
  min_bid : ℚ
deriving DecidableEq, Repr

/-- A sanity check that pattern matching over the keyword-named
constructors behaves as expected. -/
example : (Status.«open» ≠ Status.closed) := by decide

/-! ## Transport-layer helpers (`auction_transport.py`) -/

/-- The numeric value of a decimal digit character, `none` for any
other character. -/
def digit_val (c : Char) : Option Nat :=
  if c = '0' then some 0 else if c = '1' then some 1
  else if c = '2' then some 2 else if c = '3' then some 3
  else if c = '4' then some 4 else if c = '5' then some 5
  else if c = '6' then some 6 else if c = '7' then some 7
  else if c = '8' then some 8 else if c = '9' then some 9
  else none

/-- Accumulating left-to-right read of a decimal digit string. -/
def digits_to_nat : List Char → Nat → Option Nat
  | [], acc => some acc
  | c :: cs, acc =>
    match digit_val c with
    | none => none
    | some d => digits_to_nat cs (acc * 10 + d)

/-- Modelled from the spec: the integer conversion applied by
`lib/util.py`'s `int_or_default` (not part of this tree) — an
optionally signed, nonempty string of decimal digits parses to the
corresponding integer, anything else fails. -/
def str_to_int? (s : String) : Option Int :=
  match s.data with
  | [] => none
  | '-' :: cs =>
    match cs with
    | [] => none
    | _ => (digits_to_nat cs 0).map (fun n => -(n : Int))
  | '+' :: cs =>
    match cs with
    | [] => none
    | _ => (digits_to_nat cs 0).map (fun n => (n : Int))
  | cs => (digits_to_nat cs 0).map (fun n => (n : Int))

/-- Modelled from the spec: `int_or_default` lives in `lib/util.py`,
which is not part of this tree; its call sites
(`int_or_default(request.args.get("skip"), 0)` etc.) and its name fix
it as: parse the query-string value as an integer, falling back to the
supplied default when the parameter is absent or unparseable. -/
def int_or_default (value : Option String) (default : Int) : Int :=
  match value with
  | none => default
  | some s =>
    match str_to_int? s with
    | none => default
    | some n => n

/-- The query-string parameters read by `route_list_auctions`
(`broker_id`, `skip`, `limit`); `route_list_public_auctions` reads
only the latter two. `none` models an absent parameter. -/
structure ListQuery where
  broker_id : Option String
  skip : Option String
  limit : Option String

/-- Argument computation of `route_list_auctions` (lines 38–57): the
triple `(broker_id, skip, limit)` it passes to `get_auctions`.
`broker_id` falls back to `""` when absent; `skip`/`limit` go through
`int_or_default` with defaults 0 and 20. -/
def route_list_auctions_args (q : ListQuery) : String × Int × Int :=
  ( match q.broker_id with
    | none => ""
    | some b => b
  , int_or_default q.skip 0
  , int_or_default q.limit 20 )

/-- Argument computation of `route_list_public_auctions`
(lines 60–76): the pair `(skip, limit)` it passes to
`get_public_auctions`. -/
def route_list_public_auctions_args (q : ListQuery) : Int × Int :=
  (int_or_default q.skip 0, int_or_default q.limit 20)

/-! ## Service layer (`service.auction_service`)

The service sources are not part of this tree; every operation below
is reconstructed from spec §4–§4.3 ("Modelled from the spec"). -/

/-- Whether `u` is the username of one of the auction's members. -/
def is_member (a : Auction) (u : String) : Bool :=
  a.members.any (fun m => m.username = u)

/-- Whether `u` may bid: a member directly, or a broker some member
delegated to (spec §4.3: "directly or via active broker
representation"). -/
def is_active_bidder (a : Auction) (u : String) : Bool :=
  a.members.any (fun m =>
    m.username = u ∨ m.represented_broker_id = some u)

/-- The current highest bid amount of an auction's bid log, `none`
when no bid has been recorded. -/
def highest_bid : List Bid → Option ℚ
  | [] => none
  | b :: bs =>
    match highest_bid bs with
    | none => some b.amount
    | some m => some (max b.amount m)

/-- The current lowest bid amount of an auction's bid log, `none`
when no bid has been recorded. -/
def lowest_bid : List Bid → Option ℚ
  | [] => none
  | b :: bs =>
    match lowest_bid bs with
    | none => some b.amount
    | some m => some (min b.amount m)

/-- The direction check of spec §4.3: for ascending auctions the
amount must exceed the current highest bid (or the reservable minimum
if none); for descending it must be lower than the current lowest
bid. -/
def bid_allowed (a : Auction) (amount : ℚ) : Bool :=
  match a.auction_type with
  | .ascending =>
    match highest_bid a.bids with
    | none => a.min_bid < amount
    | some h => h < amount
  | .descending =>
    match lowest_bid a.bids with
    | none => true
    | some l => amount < l

/-- Modelled from the spec: `placeBid` (§4.3) — requires the auction
open, the bidder a member (directly or via representation), and the
amount valid for the auction's direction; appends the bid to the log.
Failure order follows §4.3's requires-clauses: AuctionClosedError,
then NotMemberError, then InvalidBidError. -/
def place_bid (a : Auction) (bidder : String) (amount : ℚ) :
    Except ServiceError Auction :=
  if a.status = .closed then .error .AuctionClosedError
  else if ¬ is_active_bidder a bidder then .error .NotMemberError
  else if bid_allowed a amount then
    .ok { a with bids := a.bids ++ [⟨bidder, amount⟩] }
  else .error .InvalidBidError

/-- Modelled from the spec: `join` (§4.2) — requires the auction open
(§4.3's state machine: no further joins once closed) and the username
not already a member; appends a member record with the given location
and a pending broker reference. -/
def join_auction (a : Auction) (username : String) (location : Int × Int)
    (broker_id : String) : Except ServiceError Auction :=
  if a.status = .closed then .error .AuctionClosedError
  else if is_member a username then .error .AlreadyJoinedError
  else .ok { a with members :=
    a.members ++ [⟨username, location, "", some broker_id⟩] }

/-- Modelled from the spec: `representAsBroker` (§4.2) — a member
delegates bidding authority to `broker_id`, overwriting any prior
delegation, and the represented username (the requester's) is
returned; NotFoundError when the requester is not a member, and no
further representation once closed (§4.3's state machine). -/
def set_broker (ms : List Member) (u b : String) : List Member :=
  ms.map (fun m =>
    if m.username = u then { m with represented_broker_id := some b }
    else m)

def represent_as_broker (a : Auction) (requester broker_id : String) :
    Except ServiceError (String × Auction) :=
  if a.status = .closed then .error .AuctionClosedError
  else if ¬ is_member a requester then .error .NotFoundError
  else .ok (requester, { a with members := set_broker a.members requester broker_id })

/-- The broker currently delegated to by the member named `u`, if
any. -/
def broker_of (a : Auction) (u : String) : Option String :=
  match a.members.find? (fun m => m.username = u) with
  | none => none
  | some m => m.represented_broker_id

/-- Response computation of `route_represent_in_auction`
(lines 195–205): the success message interpolates the username
returned by `represent_as_broker`. -/
def route_represent_in_auction (a : Auction)
    (auction_id username broker_id : String) :
    Except ServiceError (String × Auction) :=
  match represent_as_broker a username broker_id with
  | .error e => .error e
  | .ok (represented, a') =>
    .ok ("You are now representing " ++ represented ++ " in auction "
      ++ auction_id, a')

/-- Modelled from the spec: `end` (§4.1) — a second `end()` fails with
AuctionClosedError regardless of arguments (§8), so the closed check
comes first; then the requester must be the owner or the auction's
broker, and the winner an existing member with at least one recorded
bid; on success the auction closes with the winner set. -/
def end_auction (a : Auction) (requester winner : String) :
    Except ServiceError Auction :=
  if a.status = .closed then .error .AuctionClosedError
  else if ¬ (requester = a.owner ∨ requester = a.broker_id) then
    .error .PermissionError
  else if ¬ (is_member a winner ∧ a.bids.any (fun b => b.bidder = winner)) then
    .error .InvalidWinnerError
  else .ok { a with status := .closed, winner := some winner }

/-- Modelled from the spec: `get` (§4.1) — returns the full auction
detail (room, members, bids) when the auction is public or the caller
a member; AccessDeniedError otherwise. -/
def get_auction (a : Auction) (username : String) :
    Except ServiceError Auction :=
  if a.privacy = .«public» then .ok a
  else if is_member a username then .ok a
  else .error .AccessDeniedError

/-! ## Auction creation (`create_auction_schema` + `create(owner, spec)`) -/

/-- One entry of the create request's `members` array
(`create_auction_schema`, lines 113–132): username, 2-D location,
offer id. -/
structure MemberSpec where
  username : String
  location : Int × Int
  offer_id : String
deriving DecidableEq, Repr

/-- The body of a create request after JSON typing, fields exactly the
required ones of `create_auction_schema`.  `closing_time` carries the
parsed timestamp (the schema only types it as a string; the service
interprets it). -/
structure CreateSpec where
  room_name : String
  privacy : String
  auction_type : String
  closing_time : Int
  reference_sector : String
  reference_type : String
  quantity : ℚ
  offer_id : String
  templatetype : String
  members : List MemberSpec
  broker_id : String

/-- The strings matched by the schema pattern `^(public|private)$` as
jsonschema evaluates it: Python `re.search` without MULTILINE, where
`^` matches only at the start of the string but `$` matches at the end
*or just before a trailing newline* — so each alternative is accepted
bare or with a single trailing newline appended. -/
def privacy_pattern (s : String) : Bool :=
  s = "public" ∨ s = "private" ∨ s = "public\n" ∨ s = "private\n"

/-- The strings matched by the schema pattern
`^(ascending|descending)$` under the same Python `re.search`
semantics (trailing newline admitted by `$`). -/
def auction_type_pattern (s : String) : Bool :=
  s = "ascending" ∨ s = "descending"
  ∨ s = "ascending\n" ∨ s = "descending\n"

/-- The value-level content of `create_auction_schema` beyond JSON
typing: `privacy` must match the pattern `^(public|private)$` and
`auction_type` the pattern `^(ascending|descending)$` — both evaluated
with Python `re.search` semantics, see `privacy_pattern` — and
`members` has `uniqueItems`: whole-entry uniqueness, two entries are
duplicates only when username, location and offer id all coincide. -/
def schema_accepts (s : CreateSpec) : Bool :=
  privacy_pattern s.privacy = true
  ∧ auction_type_pattern s.auction_type = true
  ∧ s.members.Nodup

/-- Interpretation of a schema-valid privacy string. -/
def parse_privacy (s : String) : Privacy :=
  if s = "public" then .«public» else .«private»

/-- Interpretation of a schema-valid auction-type string. -/
def parse_auction_type (s : String) : AuctionType :=
  if s = "ascending" then .ascending else .descending

/-- The basic field validation of spec §4.1's `create`: privacy and
auction_type well-formed, closing_time in the future, quantity
positive. -/
def create_spec_valid (now : Int) (s : CreateSpec) : Bool :=
  (s.privacy = "public" ∨ s.privacy = "private")
  ∧ (s.auction_type = "ascending" ∨ s.auction_type = "descending")
  ∧ now < s.closing_time
  ∧ 0 < s.quantity

/-- A member record seeded from one entry of the create request. -/
def seed_member (m : MemberSpec) : Member :=
  ⟨m.username, m.location, m.offer_id, none⟩

/-- The initial member list of a new auction: the request's entries,
with the owner prepended when not already listed (spec §4.1 seeds the
owner, and §3's invariant keeps at most one entry per username). -/
def seed_members (owner : String) (s : CreateSpec) : List Member :=
  if s.members.any (fun m => m.username = owner) then
    s.members.map seed_member
  else
    ⟨owner, (0, 0), s.offer_id, none⟩ :: s.members.map seed_member

/-- Modelled from the spec: `create(owner, spec)` (§4.1) — validates
the spec (ValidationError when malformed, DuplicateMemberError on
repeated member usernames) and creates the auction in status open with
the seeded member list, an empty bid log, no winner, and reservable
minimum 0 (the §8 scenario's min-bid). -/
def create_auction (now : Int) (owner : String) (s : CreateSpec) :
    Except ServiceError Auction :=
  if ¬ create_spec_valid now s then .error .ValidationError
  else if ¬ (s.members.map (fun m => m.username)).Nodup then
    .error .DuplicateMemberError
  else .ok
    { room_name := s.room_name
      privacy := parse_privacy s.privacy
      auction_type := parse_auction_type s.auction_type
      closing_time := s.closing_time
      reference_sector := s.reference_sector
      reference_type := s.reference_type
      quantity := s.quantity
      offer_id := s.offer_id
      templatetype := s.templatetype
      broker_id := s.broker_id
      owner := owner
      status := .«open»
      winner := none
      members := seed_members owner s
      bids := []
      min_bid := 0 }

/-- `route_create_room` (lines 138–151): `@expects_json` validates the
request against `create_auction_schema` before the handler runs — a
schema violation is rejected as a ValidationError without
`create_auction` ever being invoked — then the handler calls
`create_auction(username, g.data)`. -/
def route_create_room (now : Int) (username : String) (s : CreateSpec) :
    Except ServiceError Auction :=
  if schema_accepts s then create_auction now username s
  else .error .ValidationError

/-- The transport-level effect of a sequence of `place_bid` calls on
one auction: an accepted bid updates the state, a rejected bid leaves
it unchanged (the route returns the error to the caller). -/
def run_bids (a : Auction) : List (String × ℚ) → Auction
  | [] => a
  | (bidder, amount) :: rest =>
    match place_bid a bidder amount with
    | .ok a' => run_bids a' rest
    | .error _ => run_bids a rest

/-! ## Theorems about the listing routes (claims C4, C9, C10) -/

/-- C9: when the `broker_id` query parameter is absent,
`route_list_auctions` passes the empty string (not a null value) as
the broker_id argument to `get_auctions`. -/
theorem C9_absent_broker_id_is_empty_string (skip limit : Option String) :
    (route_list_auctions_args ⟨none, skip, limit⟩).1 = "" := rfl

/-- C10: when `skip` or `limit` is absent or not parseable as an
integer, both listing routes call the service layer with the defaults
skip = 0 and limit = 20 for that parameter. -/
theorem C10_skip_limit_defaults (q : ListQuery) :
    ((q.skip = none ∨ ∃ s, q.skip = some s ∧ str_to_int? s = none) →
      (route_list_auctions_args q).2.1 = 0 ∧
      (route_list_public_auctions_args q).1 = 0) ∧
    ((q.limit = none ∨ ∃ s, q.limit = some s ∧ str_to_int? s = none) →
      (route_list_auctions_args q).2.2 = 20 ∧
      (route_list_public_auctions_args q).2 = 20) := by
  constructor
  · rintro (h | ⟨s, hs, hp⟩)
    · simp [route_list_auctions_args, route_list_public_auctions_args,
        int_or_default, h]
    · simp [route_list_auctions_args, route_list_public_auctions_args,
        int_or_default, hs, hp]
  · rintro (h | ⟨s, hs, hp⟩)
    · simp [route_list_auctions_args, route_list_public_auctions_args,
        int_or_default, h]
    · simp [route_list_auctions_args, route_list_public_auctions_args,
        int_or_default, hs, hp]

/-- Witness for C10 at a concrete query: `skip` absent, `limit` the
unparseable string `"abc"`. -/
theorem C10_skip_limit_defaults_witness :
    (route_list_auctions_args ⟨none, none, some "abc"⟩).2.1 = 0 ∧
    (route_list_auctions_args ⟨none, none, some "abc"⟩).2.2 = 20 := by
  refine ⟨((C10_skip_limit_defaults ⟨none, none, some "abc"⟩).1
      (Or.inl rfl)).1, ?_⟩
  exact ((C10_skip_limit_defaults ⟨none, none, some "abc"⟩).2
      (Or.inr ⟨"abc", rfl, rfl⟩)).1

/-- C4 counterexample: with `skip=-5` and `limit=9999999` in the query
string, the listing routes pass −5 and 9999999 straight to the service
layer — the skip value is negative and the limit exceeds 20, so the
arguments are not clamped to a range [0, bound]. -/
theorem C4_counterexample :
    (route_list_auctions_args ⟨none, some "-5", some "9999999"⟩).2.1 = -5 ∧
    ¬ (0 ≤ (route_list_auctions_args ⟨none, some "-5", some "9999999"⟩).2.1) ∧
    (route_list_public_auctions_args ⟨none, some "-5", some "9999999"⟩).2
      = 9999999 := by
  refine ⟨rfl, ?_, rfl⟩
  intro h
  simp [route_list_auctions_args, int_or_default, str_to_int?,
    digits_to_nat, digit_val] at h

/-- C4 as amended: the routes parse `skip` and `limit` with defaults
0 and 20 and pass every parsed integer value to the service layer
unmodified — no clamping to non-negative values and no upper bound on
limit is applied in the transport layer. -/
theorem C4_amended_no_clamping (q : ListQuery) (s t : String) (m n : Int)
    (hs : q.skip = some s) (hm : str_to_int? s = some m)
    (ht : q.limit = some t) (hn : str_to_int? t = some n) :
    (route_list_auctions_args q).2.1 = m ∧
    (route_list_auctions_args q).2.2 = n ∧
    route_list_public_auctions_args q = (m, n) := by
  simp [route_list_auctions_args, route_list_public_auctions_args,
    int_or_default, hs, hm, ht, hn]

/-! ## Concrete fixtures used by witnesses and counterexamples -/

/-- A concrete open private auction: owner `alice`, sole member
`alice`, one recorded bid of 10 by `alice`. -/
def room0 : Auction :=
  { room_name := "room-zero"
    privacy := .«private»
    auction_type := .ascending
    closing_time := 100
    reference_sector := "sector"
    reference_type := "type"
    quantity := 1
    offer_id := "offer-0"
    templatetype := "template"
    broker_id := "broker-0"
    owner := "alice"
    status := .«open»
    winner := none
    members := [⟨"alice", (0, 0), "offer-0", none⟩]
    bids := [⟨"alice", 10⟩]
    min_bid := 0 }

/-- `room0` once `end(room0, alice, alice)` has succeeded. -/
def room0_closed : Auction :=
  { room0 with status := .closed, winner := some "alice" }

/-- The same room with public visibility. -/
def room0_public : Auction := { room0 with privacy := .«public» }

/-- Witness for the amended C4 at the concrete query
`skip=-5`, `limit=1000000`. -/
theorem C4_amended_no_clamping_witness :
    (route_list_auctions_args ⟨none, some "-5", some "1000000"⟩).2.1 = -5 ∧
    (route_list_auctions_args ⟨none, some "-5", some "1000000"⟩).2.2
      = 1000000 ∧
    route_list_public_auctions_args ⟨none, some "-5", some "1000000"⟩
      = (-5, 1000000) :=
  C4_amended_no_clamping ⟨none, some "-5", some "1000000"⟩
    "-5" "1000000" (-5) 1000000 rfl rfl rfl rfl

/-! ## Access control on reads (claim C3) -/

/-- C3: `get` on a private auction by a non-member always fails with
AccessDeniedError, by a member always succeeds and returns the full
auction detail; on a public auction it succeeds for every caller. -/
theorem C3_private_get_access_control (a : Auction) (username : String) :
    (a.privacy = .«private» → is_member a username = false →
      get_auction a username = .error .AccessDeniedError) ∧
    (a.privacy = .«private» → is_member a username = true →
      get_auction a username = .ok a) ∧
    (a.privacy = .«public» → get_auction a username = .ok a) := by
  refine ⟨fun hp hm => ?_, fun hp hm => ?_, fun hp => ?_⟩
  · simp [get_auction, hp, hm]
  · simp [get_auction, hp, hm]
  · simp [get_auction, hp]

/-- Witness for C3 on the concrete rooms: `bob` is denied on the
private room, `alice` (a member) and the public room succeed. -/
theorem C3_private_get_access_control_witness :
    get_auction room0 "bob" = .error .AccessDeniedError ∧
    get_auction room0 "alice" = .ok room0 ∧
    get_auction room0_public "bob" = .ok room0_public :=
  ⟨(C3_private_get_access_control room0 "bob").1 rfl rfl,
   (C3_private_get_access_control room0 "alice").2.1 rfl rfl,
   (C3_private_get_access_control room0_public "bob").2.2 rfl⟩

/-! ## Terminal closed status (claim C2) -/

/-- C2: once `end` succeeds the auction is closed, and closed is
terminal — every subsequent join, represent, or bid on the resulting
auction fails with AuctionClosedError, and so does a second `end`
regardless of its arguments; since failing operations return no new
state, nothing moves a closed auction back to open. -/
theorem C2_closed_is_terminal (a a' : Auction) (req w : String)
    (h : end_auction a req w = .ok a') :
    a'.status = .closed ∧
    (∀ u loc b, join_auction a' u loc b = .error .AuctionClosedError) ∧
    (∀ u b, represent_as_broker a' u b = .error .AuctionClosedError) ∧
    (∀ u amt, place_bid a' u amt = .error .AuctionClosedError) ∧
    (∀ r2 w2, end_auction a' r2 w2 = .error .AuctionClosedError) := by
  unfold end_auction at h
  split at h
  · exact absurd h (by simp)
  · split at h
    · exact absurd h (by simp)
    · split at h
      · exact absurd h (by simp)
      · injection h with h
        subst h
        refine ⟨rfl, ?_, ?_, ?_, ?_⟩ <;>
          intros <;>
          simp [join_auction, represent_as_broker, place_bid, end_auction]

/-- Witness for C2: closing `room0` by its owner with winner `alice`
succeeds, after which a bid and a second `end` both fail with
AuctionClosedError. -/
theorem C2_closed_is_terminal_witness :
    room0_closed.status = .closed ∧
    place_bid room0_closed "alice" 11 = .error .AuctionClosedError ∧
    end_auction room0_closed "bob" "carol" = .error .AuctionClosedError := by
  have h := C2_closed_is_terminal room0 room0_closed "alice" "alice" (by rfl)
  exact ⟨h.1, h.2.2.2.1 "alice" 11, h.2.2.2.2 "bob" "carol"⟩

/-! ## Broker representation (claim C8) -/

lemma set_broker_any (ms : List Member) (u b x : String) :
    (set_broker ms u b).any (fun m => m.username = x)
      = ms.any (fun m => m.username = x) := by
  induction ms with
  | nil => rfl
  | cons m rest ih =>
    simp only [set_broker, List.map_cons, List.any_cons] at *
    by_cases h : m.username = u
    · simp [h, ih]
    · simp [h, ih]

lemma find?_set_broker (ms : List Member) (u b : String)
    (h : ms.any (fun m => m.username = u) = true) :
    ∃ m, (set_broker ms u b).find? (fun m => m.username = u) = some m ∧
      m.represented_broker_id = some b := by
  induction ms with
  | nil => simp at h
  | cons m rest ih =>
    by_cases hm : m.username = u
    · refine ⟨{ m with represented_broker_id := some b }, ?_, rfl⟩
      have hc : set_broker (m :: rest) u b
          = { m with represented_broker_id := some b } :: set_broker rest u b := by
        simp [set_broker, hm]
      rw [hc, List.find?_cons_of_pos]
      simp [hm]
    · simp only [List.any_cons, Bool.or_eq_true, decide_eq_true_eq] at h
      rcases h with h | h
      · exact absurd h hm
      · obtain ⟨m', h1, h2⟩ := ih h
        refine ⟨m', ?_, h2⟩
        have hc : set_broker (m :: rest) u b = m :: set_broker rest u b := by
          simp [set_broker, hm]
        rw [hc, List.find?_cons_of_neg]
        · exact h1
        · simp [hm]

/-- C8 counterexample: on a closed auction, `representAsBroker` by a
requester who is a member does not return the represented username —
it fails with AuctionClosedError (the spec's state machine admits no
representation once closed). -/
theorem C8_counterexample :
    is_member room0_closed "alice" = true ∧
    represent_as_broker room0_closed "alice" "broker-2" =
      .error .AuctionClosedError :=
  ⟨rfl, rfl⟩

/-- C8 as amended: on an **open** auction, `representAsBroker` by a
member requester succeeds, returns that requester's username (which
the route's response message interpolates), and records the
delegation; calling again with a different broker id succeeds and
overwrites the prior delegation; a non-member requester fails with
NotFoundError. -/
lemma represent_ok (a : Auction) (u b : String)
    (hnc : ¬ (a.status = Status.closed)) (hmem : is_member a u = true) :
    represent_as_broker a u b =
      .ok (u, { a with members := set_broker a.members u b }) ∧
    broker_of { a with members := set_broker a.members u b } u = some b := by
  constructor
  · simp [represent_as_broker, hnc, hmem]
  · obtain ⟨m, hf, hb⟩ :=
      find?_set_broker a.members u b (by simpa [is_member] using hmem)
    simp [broker_of, hf, hb]

theorem C8_amended_represent_returns_username (a : Auction)
    (requester b1 aid : String) (hopen : a.status = .«open») :
    (is_member a requester = true →
      ∃ a₁, represent_as_broker a requester b1 = .ok (requester, a₁) ∧
        broker_of a₁ requester = some b1 ∧
        route_represent_in_auction a aid requester b1 =
          .ok ("You are now representing " ++ requester ++
            " in auction " ++ aid, a₁) ∧
        ∀ b2, ∃ a₂,
          represent_as_broker a₁ requester b2 = .ok (requester, a₂) ∧
          broker_of a₂ requester = some b2) ∧
    (is_member a requester = false →
      represent_as_broker a requester b1 = .error .NotFoundError) := by
  have hnc : ¬ (a.status = Status.closed) := by
    rw [hopen]; intro hc; cases hc
  constructor
  · intro hmem
    obtain ⟨h1, h2⟩ := represent_ok a requester b1 hnc hmem
    refine ⟨_, h1, h2, ?_, ?_⟩
    · simp [route_represent_in_auction, h1]
    · intro b2
      have hmem1 : is_member
          { a with members := set_broker a.members requester b1 }
          requester = true := by
        simpa [is_member, set_broker_any] using hmem
      obtain ⟨g1, g2⟩ := represent_ok
        { a with members := set_broker a.members requester b1 }
        requester b2 hnc hmem1
      exact ⟨_, g1, g2⟩
  · intro hnm
    simp [represent_as_broker, hnc, hnm]

/-- Witness for the amended C8 on the concrete open room: the member
`alice` delegates to `broker-1`, the delegation is recorded, and a
re-delegation to any other broker overwrites it. -/
theorem C8_amended_represent_witness :
    is_member room0 "alice" = true ∧
    ∃ a₁, represent_as_broker room0 "alice" "broker-1" = .ok ("alice", a₁) ∧
      broker_of a₁ "alice" = some "broker-1" ∧
      ∃ a₂, represent_as_broker a₁ "alice" "broker-9" = .ok ("alice", a₂) ∧
        broker_of a₂ "alice" = some "broker-9" := by
  refine ⟨rfl, ?_⟩
  obtain ⟨a₁, h1, h2, _, h4⟩ :=
    (C8_amended_represent_returns_username room0 "alice" "broker-1"
      "room-id" rfl).1 rfl
  obtain ⟨a₂, g1, g2⟩ := h4 "broker-9"
  exact ⟨a₁, h1, h2, a₂, g1, g2⟩

/-! ## Auction creation (claims C5, C6, C7) -/

/-- A create request that passes both the JSON schema and the
service-side validations (evaluated at `now = 0`). -/
def goodSpec : CreateSpec :=
  { room_name := "room-new"
    privacy := "private"
    auction_type := "descending"
    closing_time := 100
    reference_sector := "sector"
    reference_type := "type"
    quantity := 2
    offer_id := "offer-new"
    templatetype := "template"
    members := [⟨"bob", (1, 2), "offer-bob"⟩]
    broker_id := "broker-0" }

/-- `goodSpec` with two fully identical member entries. -/
def dupSpec : CreateSpec :=
  { goodSpec with
    members := [⟨"bob", (1, 2), "offer-bob"⟩, ⟨"bob", (1, 2), "offer-bob"⟩] }

/-- `goodSpec` with two member entries sharing a username but
differing in location and offer id. -/
def dupSpec2 : CreateSpec :=
  { goodSpec with
    members := [⟨"bob", (1, 2), "offer-bob"⟩, ⟨"bob", (3, 4), "offer-b2"⟩] }

/-- `goodSpec` with a privacy string outside the schema's anchored
pattern. -/
def badPrivacySpec : CreateSpec := { goodSpec with privacy := "Public" }

/-- `goodSpec` with a privacy string that is not exactly one of the
two alternatives but is still matched by Python `re.search` against
`^(public|private)$`, because `$` matches before a trailing
newline. -/
def newlinePrivacySpec : CreateSpec :=
  { goodSpec with privacy := "private\n" }

lemma route_create_room_ok (now : Int) (u : String) (s : CreateSpec)
    (a : Auction) (h : route_create_room now u s = .ok a) :
    schema_accepts s = true ∧ create_spec_valid now s = true ∧
    (s.members.map (fun m => m.username)).Nodup ∧
    a.members = seed_members u s ∧
    a.privacy = parse_privacy s.privacy ∧
    a.auction_type = parse_auction_type s.auction_type := by
  by_cases h1 : schema_accepts s = true
  · by_cases h2 : create_spec_valid now s = true
    · by_cases h3 : (s.members.map (fun m => m.username)).Nodup
      · unfold route_create_room create_auction at h
        rw [if_pos h1, if_neg (by simp [h2]), if_neg (by simp [h3])] at h
        injection h with h
        subst h
        exact ⟨h1, h2, h3, rfl, rfl, rfl⟩
      · simp [route_create_room, create_auction, h1, h2, h3] at h
    · simp [route_create_room, create_auction, h1, h2] at h
  · simp [route_create_room, h1] at h

lemma seed_members_usernames (owner : String) (s : CreateSpec)
    (h : (s.members.map (fun m => m.username)).Nodup) :
    ((seed_members owner s).map (fun m => m.username)).Nodup := by
  have hmap : ((s.members.map seed_member).map (fun m => m.username))
      = s.members.map (fun m => m.username) := by
    rw [List.map_map]; rfl
  unfold seed_members
  split
  · rw [hmap]; exact h
  · rename_i hno
    rw [List.map_cons, hmap, List.nodup_cons]
    refine ⟨?_, h⟩
    simp only [List.any_eq_true, decide_eq_true_eq] at hno
    simp only [List.mem_map]
    rintro ⟨m, hm, hu⟩
    exact hno ⟨m, hm, hu⟩

/-- C5 counterexample: a create request whose members list holds two
entries with the same username does not necessarily fail with
DuplicateMemberError — when the two entries are fully identical the
schema's `uniqueItems` rejects the request first, as a plain
validation failure, before `create_auction` ever runs. -/
theorem C5_counterexample :
    dupSpec.members.map (fun m => m.username) = ["bob", "bob"] ∧
    route_create_room 0 "alice" dupSpec = .error .ValidationError ∧
    route_create_room 0 "alice" dupSpec ≠ .error .DuplicateMemberError := by
  have h : route_create_room 0 "alice" dupSpec = .error .ValidationError := by
    have hs : schema_accepts dupSpec = false := by decide
    simp [route_create_room, hs]
  refine ⟨rfl, h, ?_⟩
  simp [h]

/-- C5 as amended: every create request with a repeated member
username fails (no auction is created); when it passes the schema
(the duplicate entries are not fully identical) and the basic field
validations, the failure is DuplicateMemberError; and every auction
that creation does return has pairwise-distinct member usernames. -/
theorem C5_amended_duplicate_usernames (now : Int) (u : String)
    (s : CreateSpec)
    (hdup : ¬ (s.members.map (fun m => m.username)).Nodup) :
    (∀ a, route_create_room now u s ≠ .ok a) ∧
    (schema_accepts s = true → create_spec_valid now s = true →
      route_create_room now u s = .error .DuplicateMemberError) ∧
    (∀ now' u' s' a, route_create_room now' u' s' = .ok a →
      ((a.members.map (fun m => m.username)).Nodup)) := by
  refine ⟨?_, ?_, ?_⟩
  · intro a ha
    obtain ⟨_, _, h3, _⟩ := route_create_room_ok now u s a ha
    exact hdup h3
  · intro hsch hval
    simp [route_create_room, hsch, create_auction, hval, hdup]
  · intro now' u' s' a ha
    obtain ⟨_, _, h3, hm, _⟩ := route_create_room_ok now' u' s' a ha
    rw [hm]
    exact seed_members_usernames u' s' h3

/-- Witness for the amended C5: two entries for `bob` that differ in
location are accepted by the schema's whole-entry `uniqueItems` check
and then rejected by `create_auction` as DuplicateMemberError. -/
theorem C5_amended_duplicate_usernames_witness :
    route_create_room 0 "alice" dupSpec2 = .error .DuplicateMemberError := by
  have h := C5_amended_duplicate_usernames 0 "alice" dupSpec2 (by decide)
  exact h.2.1 (by decide) (by decide)

/-- C6: a create request whose quantity is not strictly positive, or
whose closing time is not in the future, is rejected with
ValidationError — both by `create_auction` itself and through the
route — so no auction is created. -/
theorem C6_quantity_and_closing_validated (now : Int) (u : String)
    (s : CreateSpec)
    (h : ¬ (0 < s.quantity) ∨ ¬ (now < s.closing_time)) :
    route_create_room now u s = .error .ValidationError ∧
    create_auction now u s = .error .ValidationError := by
  have hv : create_spec_valid now s = false := by
    unfold create_spec_valid
    rw [decide_eq_false_iff_not]
    rcases h with h | h
    · exact fun hc => h hc.2.2.2
    · exact fun hc => h hc.2.2.1
  have hc : create_auction now u s = .error .ValidationError := by
    simp [create_auction, hv]
  refine ⟨?_, hc⟩
  unfold route_create_room
  split
  · exact hc
  · rfl

/-- Witness for C6: zero quantity, and a closing time in the past,
are each rejected. -/
theorem C6_quantity_and_closing_validated_witness :
    route_create_room 0 "alice" { goodSpec with quantity := 0 }
      = .error .ValidationError ∧
    route_create_room 200 "alice" goodSpec = .error .ValidationError :=
  ⟨(C6_quantity_and_closing_validated 0 "alice" _
      (Or.inl (by norm_num))).1,
   (C6_quantity_and_closing_validated 200 "alice" goodSpec
      (Or.inr (by norm_num [goodSpec]))).1⟩

/-- C7 counterexample: the privacy string `"private\n"` is not exactly
`public` or `private`, yet the schema — evaluated as jsonschema does,
with Python `re.search` where `$` also matches before a trailing
newline — accepts the request, and the route then invokes
`create_auction` on it instead of rejecting it during request
validation. -/
theorem C7_counterexample :
    (newlinePrivacySpec.privacy ≠ "public" ∧
      newlinePrivacySpec.privacy ≠ "private") ∧
    schema_accepts newlinePrivacySpec = true ∧
    route_create_room 0 "alice" newlinePrivacySpec
      = create_auction 0 "alice" newlinePrivacySpec := by
  refine ⟨⟨by decide, by decide⟩, by decide, ?_⟩
  simp [route_create_room, show schema_accepts newlinePrivacySpec = true
    by decide]

/-- C7 as amended: request validation accepts privacy exactly when it
matches `^(public|private)$` under Python `re.search` — the two
alternatives bare or with a single trailing newline — and likewise
auction_type against `^(ascending|descending)$`; any string outside
those matched sets is rejected by the schema before `create_auction`
is invoked, while a request the schema accepts is handed to
`create_auction`.  The trailing-newline variants that slip through the
schema are then rejected by `create_auction`'s own validation with
ValidationError, so every value other than the four exact strings
still fails to create an auction, and every stored auction has a
two-valued privacy and auction_type derived from the exact strings. -/
theorem C7_amended_privacy_and_type_patterns (now : Int) (u : String)
    (s : CreateSpec) :
    ((¬ privacy_pattern s.privacy = true ∨
      ¬ auction_type_pattern s.auction_type = true) →
      schema_accepts s = false ∧
      route_create_room now u s = .error .ValidationError) ∧
    (schema_accepts s = true →
      route_create_room now u s = create_auction now u s) ∧
    ((¬ (s.privacy = "public" ∨ s.privacy = "private") ∨
      ¬ (s.auction_type = "ascending" ∨ s.auction_type = "descending")) →
      route_create_room now u s = .error .ValidationError) ∧
    (∀ a, route_create_room now u s = .ok a →
      (s.privacy = "public" ∨ s.privacy = "private") ∧
      (s.auction_type = "ascending" ∨ s.auction_type = "descending") ∧
      a.privacy = parse_privacy s.privacy ∧
      a.auction_type = parse_auction_type s.auction_type) := by
  refine ⟨?_, ?_, ?_, ?_⟩
  · intro h
    have hs : schema_accepts s = false := by
      unfold schema_accepts
      rw [decide_eq_false_iff_not]
      rcases h with h | h
      · exact fun hc => h hc.1
      · exact fun hc => h hc.2.1
    exact ⟨hs, by simp [route_create_room, hs]⟩
  · intro hsch
    simp [route_create_room, hsch]
  · intro h
    by_cases hsch : schema_accepts s = true
    · have hv : create_spec_valid now s = false := by
        unfold create_spec_valid
        rw [decide_eq_false_iff_not]
        rcases h with h | h
        · exact fun hc => h hc.1
        · exact fun hc => h hc.2.1
      simp [route_create_room, hsch, create_auction, hv]
    · simp [route_create_room, hsch]
  · intro a ha
    obtain ⟨_, h2, _, _, hp, ht⟩ := route_create_room_ok now u s a ha
    have hA : (s.privacy = "public" ∨ s.privacy = "private") ∧
        (s.auction_type = "ascending" ∨ s.auction_type = "descending") ∧
        now < s.closing_time ∧ 0 < s.quantity := by
      simpa [create_spec_valid] using h2
    exact ⟨hA.1, hA.2.1, hp, ht⟩

/-- Witness for the amended C7: the capitalised `Public` fails even
the `re.search` pattern and is schema-rejected; the trailing-newline
`private\n` passes the schema, reaches `create_auction`, and is
rejected there with ValidationError. -/
theorem C7_amended_privacy_and_type_patterns_witness :
    (schema_accepts badPrivacySpec = false ∧
      route_create_room 0 "alice" badPrivacySpec
        = .error .ValidationError) ∧
    route_create_room 0 "alice" newlinePrivacySpec
      = create_auction 0 "alice" newlinePrivacySpec ∧
    route_create_room 0 "alice" newlinePrivacySpec
      = .error .ValidationError :=
  ⟨(C7_amended_privacy_and_type_patterns 0 "alice" badPrivacySpec).1
      (Or.inl (by decide)),
   (C7_amended_privacy_and_type_patterns 0 "alice" newlinePrivacySpec).2.1
      (by decide),
   (C7_amended_privacy_and_type_patterns 0 "alice" newlinePrivacySpec).2.2.1
      (Or.inl (by decide))⟩

/-! ## Bid-direction rule (claim C1) -/

lemma highest_bid_eq_none (bs : List Bid) (h : highest_bid bs = none) :
    bs = [] := by
  cases bs with
  | nil => rfl
  | cons b rest =>
    cases hr : highest_bid rest <;> simp [highest_bid, hr] at h

lemma highest_bid_le (bs : List Bid) (m : ℚ) (h : highest_bid bs = some m) :
    ∀ b ∈ bs, b.amount ≤ m := by
  induction bs generalizing m with
  | nil => simp [highest_bid] at h
  | cons b rest ih =>
    intro x hx
    unfold highest_bid at h
    cases hr : highest_bid rest with
    | none =>
      rw [hr] at h
      injection h with h
      subst h
      rcases List.mem_cons.mp hx with rfl | hx'
      · exact le_refl _
      · rw [highest_bid_eq_none rest hr] at hx'
        exact absurd hx' (List.not_mem_nil x)
    | some mr =>
      rw [hr] at h
      injection h with h
      subst h
      rcases List.mem_cons.mp hx with rfl | hx'
      · exact le_max_left _ _
      · exact le_trans (ih mr hr x hx') (le_max_right _ _)

lemma highest_bid_mem (bs : List Bid) (m : ℚ) (h : highest_bid bs = some m) :
    ∃ b ∈ bs, b.amount = m := by
  induction bs generalizing m with
  | nil => simp [highest_bid] at h
  | cons b rest ih =>
    unfold highest_bid at h
    cases hr : highest_bid rest with
    | none =>
      rw [hr] at h
      injection h with h
      exact ⟨b, List.mem_cons_self _ _, h⟩
    | some mr =>
      rw [hr] at h
      injection h with h
      rcases max_choice b.amount mr with hmx | hmx
      · exact ⟨b, List.mem_cons_self _ _, by rw [← h, hmx]⟩
      · obtain ⟨b', hb', he⟩ := ih mr hr
        exact ⟨b', List.mem_cons_of_mem _ hb', by rw [← h, hmx, he]⟩

lemma lowest_bid_eq_none (bs : List Bid) (h : lowest_bid bs = none) :
    bs = [] := by
  cases bs with
  | nil => rfl
  | cons b rest =>
    cases hr : lowest_bid rest <;> simp [lowest_bid, hr] at h

lemma lowest_bid_le (bs : List Bid) (m : ℚ) (h : lowest_bid bs = some m) :
    ∀ b ∈ bs, m ≤ b.amount := by
  induction bs generalizing m with
  | nil => simp [lowest_bid] at h
  | cons b rest ih =>
    intro x hx
    unfold lowest_bid at h
    cases hr : lowest_bid rest with
    | none =>
      rw [hr] at h
      injection h with h
      subst h
      rcases List.mem_cons.mp hx with rfl | hx'
      · exact le_refl _
      · rw [lowest_bid_eq_none rest hr] at hx'
        exact absurd hx' (List.not_mem_nil x)
    | some mr =>
      rw [hr] at h
      injection h with h
      subst h
      rcases List.mem_cons.mp hx with rfl | hx'
      · exact min_le_left _ _
      · exact le_trans (min_le_right _ _) (ih mr hr x hx')

lemma lowest_bid_mem (bs : List Bid) (m : ℚ) (h : lowest_bid bs = some m) :
    ∃ b ∈ bs, b.amount = m := by
  induction bs generalizing m with
  | nil => simp [lowest_bid] at h
  | cons b rest ih =>
    unfold lowest_bid at h
    cases hr : lowest_bid rest with
    | none =>
      rw [hr] at h
      injection h with h
      exact ⟨b, List.mem_cons_self _ _, h⟩
    | some mr =>
      rw [hr] at h
      injection h with h
      rcases min_choice b.amount mr with hmn | hmn
      · exact ⟨b, List.mem_cons_self _ _, by rw [← h, hmn]⟩
      · obtain ⟨b', hb', he⟩ := ih mr hr
        exact ⟨b', List.mem_cons_of_mem _ hb', by rw [← h, hmn, he]⟩

lemma place_bid_ok (a a' : Auction) (bidder : String) (amount : ℚ)
    (h : place_bid a bidder amount = .ok a') :
    a' = { a with bids := a.bids ++ [⟨bidder, amount⟩] } ∧
    a.status = .«open» ∧ is_active_bidder a bidder = true ∧
    bid_allowed a amount = true := by
  by_cases h1 : a.status = Status.closed
  · simp [place_bid, h1] at h
  · by_cases h2 : is_active_bidder a bidder = true
    · by_cases h3 : bid_allowed a amount = true
      · unfold place_bid at h
        rw [if_neg h1, if_neg (by simp [h2]), if_pos h3] at h
        injection h with h
        refine ⟨h.symm, ?_, h2, h3⟩
        cases hs : a.status with
        | «open» => rfl
        | closed => exact absurd hs h1
      · simp [place_bid, h1, h2, h3] at h
    · simp [place_bid, h1, h2] at h

lemma place_bid_ok_exceeds (a a' : Auction) (bidder : String) (amount : ℚ)
    (h : place_bid a bidder amount = .ok a') :
    (a.auction_type = .ascending → ∀ b ∈ a.bids, b.amount < amount) ∧
    (a.auction_type = .descending → ∀ b ∈ a.bids, amount < b.amount) := by
  obtain ⟨_, _, _, hb⟩ := place_bid_ok a a' bidder amount h
  constructor
  · intro ht x hx
    unfold bid_allowed at hb
    rw [ht] at hb
    cases hh : highest_bid a.bids with
    | none =>
      rw [highest_bid_eq_none _ hh] at hx
      exact absurd hx (List.not_mem_nil x)
    | some m =>
      rw [hh] at hb
      exact lt_of_le_of_lt (highest_bid_le _ m hh x hx)
        (by simpa using hb)
  · intro ht x hx
    unfold bid_allowed at hb
    rw [ht] at hb
    cases hh : lowest_bid a.bids with
    | none =>
      rw [lowest_bid_eq_none _ hh] at hx
      exact absurd hx (List.not_mem_nil x)
    | some m =>
      rw [hh] at hb
      exact lt_of_lt_of_le (by simpa using hb) (lowest_bid_le _ m hh x hx)

lemma run_bids_pairwise (t : AuctionType) (r : ℚ → ℚ → Prop)
    (hr : ∀ a a' bidder amount, a.auction_type = t →
      place_bid a bidder amount = .ok a' → ∀ b ∈ a.bids, r b.amount amount)
    (a : Auction) (calls : List (String × ℚ)) (ht : a.auction_type = t)
    (hs : a.bids.Pairwise (fun x y => r x.amount y.amount)) :
    (run_bids a calls).bids.Pairwise (fun x y => r x.amount y.amount) := by
  induction calls generalizing a with
  | nil => exact hs
  | cons c rest ih =>
    obtain ⟨bidder, amount⟩ := c
    cases hp : place_bid a bidder amount with
    | ok a' =>
      have hstep : run_bids a ((bidder, amount) :: rest) = run_bids a' rest := by
        simp [run_bids, hp]
      obtain ⟨ha', _, _, _⟩ := place_bid_ok a a' bidder amount hp
      rw [hstep]
      apply ih a'
      · rw [ha']; exact ht
      · subst ha'
        rw [List.pairwise_append]
        exact ⟨hs, List.pairwise_singleton _ _,
          fun x hx y hy => by
            rw [List.mem_singleton.mp hy]
            exact hr a _ bidder amount ht hp x hx⟩
    | error e =>
      have hstep : run_bids a ((bidder, amount) :: rest) = run_bids a rest := by
        simp [run_bids, hp]
      rw [hstep]
      exact ih a ht hs

lemma place_bid_invalid (a : Auction) (bidder : String) (amount : ℚ)
    (h1 : a.status = .«open») (h2 : is_active_bidder a bidder = true)
    (h3 : bid_allowed a amount = false) :
    place_bid a bidder amount = .error .InvalidBidError := by
  have hnc : ¬ (a.status = Status.closed) := by
    rw [h1]; intro hc; cases hc
  simp [place_bid, hnc, h2, h3]

/-- C1: the bid-direction rule is enforced. An accepted bid is
appended to the log and strictly exceeds every previously recorded bid
on an ascending auction (is strictly below every previously recorded
bid on a descending one); hence over any sequence of `place_bid`
calls the recorded amounts stay strictly increasing (so in particular
non-decreasing) for ascending auctions and strictly decreasing for
descending ones.  A bid violating the direction rule — characterised
in the claim's own terms by the two iff conjuncts — is rejected with
InvalidBidError when submitted by an eligible bidder on an open
auction, and any rejected bid leaves the bid list (indeed the whole
auction state) unchanged. -/
theorem C1_bid_direction_enforced (a : Auction) (bidder : String)
    (amount : ℚ) :
    (∀ a', place_bid a bidder amount = .ok a' →
      a'.bids = a.bids ++ [⟨bidder, amount⟩] ∧
      (a.auction_type = .ascending → ∀ b ∈ a.bids, b.amount < amount) ∧
      (a.auction_type = .descending → ∀ b ∈ a.bids, amount < b.amount)) ∧
    (∀ calls, a.auction_type = .ascending →
      a.bids.Pairwise (fun x y => x.amount < y.amount) →
      (run_bids a calls).bids.Pairwise (fun x y => x.amount < y.amount)) ∧
    (∀ calls, a.auction_type = .descending →
      a.bids.Pairwise (fun x y => y.amount < x.amount) →
      (run_bids a calls).bids.Pairwise (fun x y => y.amount < x.amount)) ∧
    (a.auction_type = .ascending →
      (bid_allowed a amount = false ↔
        (∃ b ∈ a.bids, amount ≤ b.amount) ∨
        (a.bids = [] ∧ amount ≤ a.min_bid))) ∧
    (a.auction_type = .descending →
      (bid_allowed a amount = false ↔ ∃ b ∈ a.bids, b.amount ≤ amount)) ∧
    (a.status = .«open» → is_active_bidder a bidder = true →
      bid_allowed a amount = false →
      place_bid a bidder amount = .error .InvalidBidError) ∧
    (∀ e, place_bid a bidder amount = .error e →
      run_bids a [(bidder, amount)] = a) := by
  refine ⟨?_, ?_, ?_, ?_, ?_, ?_, ?_⟩
  · intro a' h
    obtain ⟨ha', _, _, _⟩ := place_bid_ok a a' bidder amount h
    obtain ⟨hasc, hdesc⟩ := place_bid_ok_exceeds a a' bidder amount h
    exact ⟨by rw [ha'], hasc, hdesc⟩
  · intro calls ht hs
    exact run_bids_pairwise .ascending (fun x y => x < y)
      (fun a a' bd am hty hp =>
        (place_bid_ok_exceeds a a' bd am hp).1 hty)
      a calls ht hs
  · intro calls ht hs
    exact run_bids_pairwise .descending (fun x y => y < x)
      (fun a a' bd am hty hp =>
        (place_bid_ok_exceeds a a' bd am hp).2 hty)
      a calls ht hs
  · intro ht
    unfold bid_allowed
    rw [ht]
    cases hh : highest_bid a.bids with
    | none =>
      show decide (a.min_bid < amount) = false ↔ _
      have hnil := highest_bid_eq_none _ hh
      simp [hnil, decide_eq_false_iff_not, not_lt]
    | some m =>
      show decide (m < amount) = false ↔ _
      rw [decide_eq_false_iff_not, not_lt]
      obtain ⟨bm, hbm, hbme⟩ := highest_bid_mem _ m hh
      constructor
      · intro hle
        exact Or.inl ⟨bm, hbm, by rw [hbme]; exact hle⟩
      · rintro (⟨b, hb, hle⟩ | ⟨hnil, _⟩)
        · exact le_trans hle (highest_bid_le _ m hh b hb)
        · rw [hnil] at hh
          simp [highest_bid] at hh
  · intro ht
    unfold bid_allowed
    rw [ht]
    cases hh : lowest_bid a.bids with
    | none =>
      show (true : Bool) = false ↔ _
      have hnil := lowest_bid_eq_none _ hh
      simp [hnil]
    | some m =>
      show decide (amount < m) = false ↔ _
      rw [decide_eq_false_iff_not, not_lt]
      obtain ⟨bm, hbm, hbme⟩ := lowest_bid_mem _ m hh
      constructor
      · intro hle
        exact ⟨bm, hbm, by rw [hbme]; exact hle⟩
      · rintro ⟨b, hb, hle⟩
        exact le_trans (lowest_bid_le _ m hh b hb) hle
  · exact place_bid_invalid a bidder amount
  · intro e he
    simp [run_bids, he]

/-- Witness for C1 on the concrete ascending room holding a bid of
10: a bid of 5 violates the rule, is rejected with InvalidBidError,
and leaves the state unchanged. -/
theorem C1_bid_direction_enforced_witness :
    place_bid room0 "alice" 5 = .error .InvalidBidError ∧
    run_bids room0 [("alice", 5)] = room0 ∧
    bid_allowed room0 5 = false := by
  have h := C1_bid_direction_enforced room0 "alice" 5
  have hb : bid_allowed room0 5 = false := by
    rw [h.2.2.2.1 rfl]
    exact Or.inl ⟨⟨"alice", 10⟩, by simp [room0], by norm_num⟩
  have h5 := h.2.2.2.2.2.1 rfl rfl hb
  exact ⟨h5, h.2.2.2.2.2.2 .InvalidBidError h5, hb⟩
